import Mathlib

/-!
Verification of the ApexPath training-plan generation engine against its
natural-language specification.

The repository's checked-in sources are the React frontend (pages, stores,
type declarations); the plan-generation engine itself (PlanGenerationService,
PeriodizationPlanner, DailyScheduler, LoadAccumulator, PlanForecaster) lives
behind the HTTP API and is not part of the checked-in sources.  Definitions of
the engine below are therefore modelled from the specification's own words
(each such definition carries a doc comment starting `Modelled from the
spec:`), while the data shapes and the two request builders are translated
directly from the frontend sources (`src/frontend/src/pages/Dashboard.tsx`,
`src/unnamed/part_003`, `src/unnamed/part_005`).

Calendar dates are embedded as natural numbers counting days from a fixed
reference Monday, so the weekday of day `d` is `d % 7` with `0 = Monday`.
-/

namespace ApexPath

/-- An athlete's raw physiological capacity (spec §3 FitnessSignature;
frontend declaration `FitnessSignature` in Dashboard.tsx). -/
structure FitnessSignature where
  thresholdPower : Nat
  highIntensityEnergy : Nat
  peakPower : Nat
  weightKg : Option Nat := none
  source : Option String := none
deriving DecidableEq

/-- A triple of scalar load values, one per physiological system
(spec §3 TrainingLoad3D; frontend declaration `TrainingLoad3D`).
Form values are signed, hence `Int` components. -/
structure TrainingLoad3D where
  low : Int
  high : Int
  peak : Int
deriving DecidableEq

/-- The training impulse of a single workout decomposed into three systems
plus a total (spec §3 XSSBreakdown; frontend declaration `XSSBreakdown`). -/
structure XSSBreakdown where
  total : Nat
  low : Nat
  high : Nat
  peak : Nat
deriving DecidableEq

/-- Per-weekday availability (spec §3 DayAvailability; frontend declaration
`DayAvailability`). -/
structure DayAvailability where
  available : Bool
  startTime : Option String := none
  duration : Nat
deriving DecidableEq

/-- Program type of a planning request (frontend `ForecastConfig.programType`:
`'goal' | 'event' | 'race'`). -/
inductive ProgramType where
  | goal
  | event
  | race
deriving DecidableEq

/-- The planning request (spec §3 ForecastConfig; frontend declaration
`ForecastConfig`).  `availableDays` is a weekday-name-keyed record in the
source; it is embedded as an association list preserving entry order. -/
structure ForecastConfig where
  programType : ProgramType
  targetDate : Nat
  maxWeeklyHours : Nat
  eventReadiness : Nat
  periodizationLevel : Nat
  polarizationRatio : String
  recoveryDemands : Nat
  availableDays : List (String × DayAvailability)
deriving DecidableEq

/-- A named contiguous span of weeks (spec §3 Phase). -/
structure Phase where
  name : String
  weeks : Nat
deriving DecidableEq

/-- One scheduled training day (spec §3 PlannedWorkout, the engine's output
unit). -/
structure PlannedWorkout where
  date : Nat
  name : String
  workoutType : String
  durationMinutes : Nat
  targetTss : Nat
  targetXss : XSSBreakdown
deriving DecidableEq

/-- The summary block of a generated plan (spec §3 GeneratedPlanResult). -/
structure PlanSummary where
  totalWeeks : Nat
  totalXss : Nat
  avgWeeklyHours : Nat
  phases : List Phase
deriving DecidableEq

/-- The predicted fitness block of a generated plan (spec §3
GeneratedPlanResult). -/
structure PredictedFitness where
  thresholdPower : Nat
  highIntensityEnergy : Nat
  peakPower : Nat
  trainingLoad : TrainingLoad3D
  form : TrainingLoad3D
deriving DecidableEq

/-- The sole artifact returned by the engine (spec §3 GeneratedPlanResult). -/
structure GeneratedPlanResult where
  workouts : List PlannedWorkout
  summary : PlanSummary
  predictedFitness : PredictedFitness
deriving DecidableEq

/-- The read-only athlete fitness snapshot supplied to `generatePlan`
(spec §6: FitnessSignature plus TrainingLoad3D state). -/
structure AthleteSnapshot where
  signature : FitnessSignature
  trainingLoad : TrainingLoad3D
  recoveryLoad : TrainingLoad3D
deriving DecidableEq

/-- Errors signalled by the engine (spec §7 taxonomy). -/
inductive PlanError where
  | invalidConfiguration
  | insufficientAvailability
deriving DecidableEq

/-! ## Weekday names and availability lookup -/

/-- The seven weekday names, in the order used by the frontend pages
(`DAYS` in src/unnamed/part_003 and src/unnamed/part_005). -/
def weekdayNames : List String :=
  ["Monday", "Tuesday", "Wednesday", "Thursday", "Friday", "Saturday", "Sunday"]

/-- Name of weekday index `n` (0 = Monday). -/
def weekdayName (n : Nat) : String :=
  weekdayNames.getD n "Monday"

/-- Modelled from the spec: availability lookup by weekday name, with missing
days clamped to "unavailable, 0 minutes" (spec §3 DayAvailability). -/
def lookupDay (days : List (String × DayAvailability)) (nm : String) : DayAvailability :=
  (days.lookup nm).getD { available := false, startTime := none, duration := 0 }

/-! ## LoadAccumulator: impulseFor (spec §4.2) -/

/-- Modelled from the spec: the fixed lookup from workout type to the
low/high/peak percentage split (spec §4.2: "endurance" loads almost entirely
onto the low system, "vo2max"/"sprint" predominantly onto high/peak).
The workout-type vocabulary is the frontend's `WorkoutType` union
(Dashboard.tsx). -/
def workoutTypeShares : List (String × (Nat × Nat × Nat)) :=
  [("endurance", (95, 5, 0)),
   ("tempo", (85, 15, 0)),
   ("sweetspot", (80, 20, 0)),
   ("threshold", (70, 30, 0)),
   ("vo2max", (40, 55, 5)),
   ("intervals", (45, 50, 5)),
   ("sprint", (20, 40, 40)),
   ("recovery", (100, 0, 0)),
   ("race", (50, 40, 10)),
   ("strength", (50, 20, 30))]

/-- Modelled from the spec (§4.2 `impulseFor`, absent from the checked-in
sources): converts a workout's duration and intensity target (percent of
threshold power) into an XSSBreakdown.  The per-type split is scaled by
duration and intensity and normalized against the signature's capacity
parameters; an unrecognized workout type contributes a zero split, and a zero
duration yields a zero impulse (robustness over strictness, spec §4.2). -/
def impulseFor (workoutType : String) (durationMinutes intensityTarget : Nat)
    (sig : FitnessSignature) : XSSBreakdown :=
  let shares := (workoutTypeShares.lookup workoutType).getD (0, 0, 0)
  let base := durationMinutes * intensityTarget
  let low := base * shares.1 / 6000
  let high := base * shares.2.1 * 100 / (6000 * (100 + sig.highIntensityEnergy / 5))
  let peak := base * shares.2.2 * sig.thresholdPower / (6000 * max 1 sig.peakPower)
  { total := low + high + peak, low := low, high := high, peak := peak }

/-! ## Polarization-ratio parsing -/

/-- Splits a character list at the first `'/'`. -/
def splitSlash : List Char → List Char × List Char
  | [] => ([], [])
  | c :: cs =>
    if c = '/' then ([], cs)
    else
      let p := splitSlash cs
      (c :: p.1, p.2)

/-- Parses a decimal digit string. -/
def digitsValAux : List Char → Nat → Option Nat
  | [], acc => some acc
  | c :: cs, acc =>
    if '0' ≤ c ∧ c ≤ '9' then digitsValAux cs (acc * 10 + (c.toNat - '0'.toNat))
    else none

/-- Parses a non-empty decimal digit string. -/
def digitsVal : List Char → Option Nat
  | [] => none
  | l => digitsValAux l 0

/-- Modelled from the spec: the hard-side percentage implied by
`polarizationRatio` (spec §3: a string such as "80/20" meaning percent easy
vs. percent hard).  Malformed strings default to 20 (spec §7: numeric edge
cases are resolved by defaulting, never by raising). -/
def parseHardPct (s : String) : Nat :=
  (digitsVal (splitSlash s.toList).2).getD 20

/-! ## PeriodizationPlanner (spec §4.4) -/

/-- Modelled from the spec (§4.4 PeriodizationPlanner, absent from the
checked-in sources): splits `totalWeeks` into Base/Build/Peak/Taper.  Relative
lengths are weighted by `periodizationLevel` (low values lengthen Base, high
values lengthen Build/Peak) and by the program type (a race program always
allocates a non-zero Taper when any weeks exist).  Taper, Peak and Build take
their proportional share clamped by the remaining budget and Base absorbs the
remainder (spec §4.4 tie-break: remainder weeks go to Base first); zero-week
phases are merged away (spec §4.4 minimum-viable-horizon rule), so the phase
list always sums exactly to `totalWeeks`. -/
def periodizationPhases (totalWeeks level : Nat) (pt : ProgramType) : List Phase :=
  let wB := 100 + (100 - min level 100)
  let wU := 80 + level
  let wP := 30 + level / 2
  let wT := match pt with
    | .race => 25
    | .event => 15
    | .goal => 15
  let W := wB + wU + wP + wT
  let taperShare := match pt with
    | .race => max (totalWeeks * wT / W) 1
    | _ => totalWeeks * wT / W
  let taper := min taperShare totalWeeks
  let rem1 := totalWeeks - taper
  let peak := min (totalWeeks * wP / W) rem1
  let rem2 := rem1 - peak
  let build := min (totalWeeks * wU / W) rem2
  let base := rem2 - build
  ([⟨"Base", base⟩, ⟨"Build", build⟩, ⟨"Peak", peak⟩, ⟨"Taper", taper⟩] : List Phase).filter
    (fun p => p.weeks != 0)

/-! ## DailyScheduler (spec §4.5) -/

/-- Classification of a calendar day in the schedule (spec §4.5: states per
day are rest or scheduled; scheduled sessions are easy or hard per the
polarization ratio). -/
inductive DayClass where
  | rest
  | easy
  | hard
deriving DecidableEq

/-- Workout types classified as hard intensity (spec §4.5 polarization:
sessions are either easy or hard). -/
def isHardType (workoutType : String) : Bool :=
  workoutType ∈ ["threshold", "vo2max", "sprint", "intervals", "race"]

/-- Day classification of one scheduler output slot. -/
def classOf : Option PlannedWorkout → DayClass
  | none => .rest
  | some w => if isHardType w.workoutType then .hard else .easy

/-- Number of hard days in a window. -/
def countHard (w : List DayClass) : Nat :=
  w.countP (fun c => decide (c = DayClass.hard))

/-- Number of scheduled sessions (non-rest days) in a window. -/
def countSess (w : List DayClass) : Nat :=
  w.countP (fun c => decide (c ≠ DayClass.rest))

/-- A window satisfies the polarization constraint when its hard sessions do
not exceed the hard-side share of its sessions plus a rounding tolerance of
one workout (spec §8). -/
def windowOk (pct : Nat) (w : List DayClass) : Prop :=
  countHard w ≤ pct * countSess w / 100 + 1

instance (pct : Nat) (w : List DayClass) : Decidable (windowOk pct w) := by
  unfold windowOk; infer_instance

/-- Modelled from the spec (§4.5): the rolling-week polarization check made
before committing a hard session.  `recent` lists the candidate day first and
then the previous days newest-first; every window of up to seven days ending
at the candidate day must satisfy the polarization constraint. -/
def hardCheck (pct : Nat) (recent : List DayClass) : Prop :=
  ∀ k, k < 7 → windowOk pct (recent.take (k + 1))

instance (pct : Nat) (recent : List DayClass) : Decidable (hardCheck pct recent) := by
  unfold hardCheck; infer_instance

/-- True when the two most recent days were both hard. -/
def twoConsecHard : List DayClass → Bool
  | .hard :: .hard :: _ => true
  | _ => false

/-- True when the most recent day was hard. -/
def prevHard : List DayClass → Bool
  | .hard :: _ => true
  | _ => false

/-- Modelled from the spec (§4.5): intensity choice for an available slot.
`prior` lists the previous days newest-first.  A hard session is emitted only
when the phase emphasis asks for one, the two-consecutive-hard safety rail
permits it (a hard cap, not configurable), conservative `recoveryDemands`
(≥ 70) does not force an easy day right after a hard one, and the rolling
polarization check passes; otherwise the day is easy. -/
def chooseClass (pct recoveryDemands : Nat) (wantHard : Bool)
    (prior : List DayClass) : DayClass :=
  if ¬wantHard then .easy
  else if twoConsecHard prior then .easy
  else if 70 ≤ recoveryDemands ∧ prevHard prior then .easy
  else if hardCheck pct (.hard :: prior) then .hard
  else .easy

/-- Modelled from the spec (§4.4/§4.5): name of the phase containing a given
week offset. -/
def phaseAt (phases : List Phase) (week : Nat) : String :=
  match phases with
  | [] => "Base"
  | p :: ps => if week < p.weeks then p.name else phaseAt ps (week - p.weeks)

/-- Modelled from the spec (§4.5): whether the phase emphasis asks for a hard
session on day offset `i` — no hard work in Taper, and hard days are proposed
while the trailing week under-represents the hard-side target. -/
def wantHardDay (phases : List Phase) (pct : Nat) (i : Nat)
    (prior : List DayClass) : Bool :=
  phaseAt phases (i / 7) != "Taper" &&
    decide (countHard (prior.take 6) < max 1 (7 * pct / 100))

/-- Modelled from the spec: a hard session slot (vo2max intervals at 115 % of
threshold). -/
def mkHardWorkout (sig : FitnessSignature) (date dur : Nat) : PlannedWorkout :=
  { date := date, name := "VO2Max Intervals", workoutType := "vo2max",
    durationMinutes := dur, targetTss := dur * 115 * 115 / 10000,
    targetXss := impulseFor "vo2max" dur 115 sig }

/-- Modelled from the spec: an easy session slot (endurance ride at 65 % of
threshold). -/
def mkEasyWorkout (sig : FitnessSignature) (date dur : Nat) : PlannedWorkout :=
  { date := date, name := "Endurance Ride", workoutType := "endurance",
    durationMinutes := dur, targetTss := dur * 65 * 65 / 10000,
    targetXss := impulseFor "endurance" dur 65 sig }

/-- Modelled from the spec (§4.5 DailyScheduler, absent from the checked-in
sources): the decision for one calendar day.  A weekday marked unavailable is
forced to rest; otherwise the day's duration is the availability allotment
clamped by the remaining weekly budget (`maxWeeklyHours`), and the intensity
is picked by `chooseClass`.  Returns the slot and the updated weekly minutes
used (the weekly budget resets every seven days). -/
def step (cfg : ForecastConfig) (sig : FitnessSignature) (today pct : Nat)
    (phases : List Phase) (i : Nat) (prior : List DayClass) (weekUsed : Nat) :
    Option PlannedWorkout × Nat :=
  let wu := if i % 7 = 0 then 0 else weekUsed
  let date := today + i
  let av := lookupDay cfg.availableDays (weekdayName (date % 7))
  if av.available then
    let dur := min av.duration (cfg.maxWeeklyHours * 60 - wu)
    if dur = 0 then (none, wu)
    else
      match chooseClass pct cfg.recoveryDemands (wantHardDay phases pct i prior) prior with
      | .hard => (some (mkHardWorkout sig date dur), wu + dur)
      | _ => (some (mkEasyWorkout sig date dur), wu + dur)
  else (none, wu)

/-- Modelled from the spec (§4.5): walks the remaining days of the plan,
accumulating the decided slots newest-first in `acc`. -/
def buildRev (cfg : ForecastConfig) (sig : FitnessSignature) (today pct : Nat)
    (phases : List Phase) :
    Nat → Nat → List (Option PlannedWorkout) → Nat → List (Option PlannedWorkout)
  | 0, _, acc, _ => acc
  | n + 1, i, acc, wu =>
    let s := step cfg sig today pct phases i (acc.map classOf) wu
    buildRev cfg sig today pct phases n (i + 1) (s.1 :: acc) s.2

/-! ## FitnessModel and PlanForecaster (spec §4.1, §4.6) -/

/-- Non-negative per-system load state (spec §4.1: load and recovery load are
non-negative). -/
structure LoadVec where
  low : Nat
  high : Nat
  peak : Nat
deriving DecidableEq

/-- Modelled from the spec (§4.1): one day of exponential decay, with a
distinct (faster) time constant for the higher systems. -/
def decayVec (v : LoadVec) (cl ch cp : Nat) : LoadVec :=
  { low := v.low * cl / 100, high := v.high * ch / 100, peak := v.peak * cp / 100 }

/-- Adds a workout impulse onto a load vector. -/
def applyImpulse (v : LoadVec) (x : XSSBreakdown) : LoadVec :=
  { low := v.low + x.low, high := v.high + x.high, peak := v.peak + x.peak }

/-- Modelled from the spec (§4.1 FitnessModel, absent from the checked-in
sources): current signature plus decaying chronic and acute load curves. -/
structure FitnessModel where
  signature : FitnessSignature
  trainingLoad : LoadVec
  recoveryLoad : LoadVec
deriving DecidableEq

/-- Modelled from the spec (§4.1 `withWorkout` with `daysElapsed = 1`): one
calendar day advances both curves by one decay step (training load decays
slowly, recovery load quickly) and folds in the day's impulse, zero on rest
days (§4.1: each day without a workout is a zero-impulse decay step). -/
def dayStep (fm : FitnessModel) (slot : Option PlannedWorkout) : FitnessModel :=
  let x := match slot with
    | some w => w.targetXss
    | none => { total := 0, low := 0, high := 0, peak := 0 }
  { signature := fm.signature,
    trainingLoad := applyImpulse (decayVec fm.trainingLoad 97 95 90) x,
    recoveryLoad := applyImpulse (decayVec fm.recoveryLoad 86 80 75) x }

/-- Clamps a signed load triple to the non-negative load state. -/
def toLoadVec (t : TrainingLoad3D) : LoadVec :=
  { low := t.low.toNat, high := t.high.toNat, peak := t.peak.toNat }

/-- Modelled from the spec (§4.6 PlanForecaster, absent from the checked-in
sources): re-applies the accumulator across every day of the plan, rest days
included as decay-only steps. -/
def forecast (snap : AthleteSnapshot) (days : List (Option PlannedWorkout)) :
    FitnessModel :=
  days.foldl dayStep
    { signature := snap.signature,
      trainingLoad := toLoadVec snap.trainingLoad,
      recoveryLoad := toLoadVec snap.recoveryLoad }

/-- Modelled from the spec (§4.6): the forecast model translated back into an
approximate fitness signature — threshold power proportional to low-system
training load net of recovery load, peak power tied to the peak system. -/
def predictedOf (snap : AthleteSnapshot) (fm : FitnessModel) : PredictedFitness :=
  let tl := fm.trainingLoad
  let rl := fm.recoveryLoad
  { thresholdPower := snap.signature.thresholdPower + (tl.low - rl.low) / 20,
    highIntensityEnergy := snap.signature.highIntensityEnergy + (tl.high - rl.high) / 20,
    peakPower := snap.signature.peakPower + (tl.peak - rl.peak) / 20,
    trainingLoad := { low := (tl.low : Int), high := (tl.high : Int), peak := (tl.peak : Int) },
    form := { low := (tl.low : Int) - (rl.low : Int),
              high := (tl.high : Int) - (rl.high : Int),
              peak := (tl.peak : Int) - (rl.peak : Int) } }

/-! ## PlanGenerationService (spec §4.7) -/

/-- Modelled from the spec (§7): the minimum planning horizon in days.  The
frontend's Plans page constrains the target-date input to at least 14 days
out (src/unnamed/part_003, the date input's `min` attribute). -/
def minPlanningHorizonDays : Nat := 14

/-- Modelled from the spec (§4.7): the minimum viable session length in
minutes used by the `InsufficientAvailability` validation. -/
def minViableSessionMinutes : Nat := 30

/-- Modelled from the spec (§4.5): the full day-by-day walk from `today` to
`targetDate`, newest day first. -/
def scheduleSlots (today : Nat) (snap : AthleteSnapshot) (cfg : ForecastConfig) :
    List (Option PlannedWorkout) :=
  buildRev cfg snap.signature today (parseHardPct cfg.polarizationRatio)
    (periodizationPhases ((cfg.targetDate - today) / 7) cfg.periodizationLevel
      cfg.programType)
    (cfg.targetDate - today) 0 [] 0

/-- Modelled from the spec (§4.7 PlanGenerationService / §6 `generatePlan`,
absent from the checked-in sources): validate the ForecastConfig (fail fast,
no partial plan), then run the periodization planner, the daily scheduler and
the forecaster, and assemble the GeneratedPlanResult. -/
def generatePlan (today athleteId : Nat) (snap : AthleteSnapshot)
    (cfg : ForecastConfig) : Except PlanError GeneratedPlanResult :=
  if cfg.targetDate < today + minPlanningHorizonDays then
    .error .invalidConfiguration
  else if ¬ (weekdayNames.any fun nm => (lookupDay cfg.availableDays nm).available) then
    .error .invalidConfiguration
  else if ¬ (weekdayNames.any fun nm =>
      (lookupDay cfg.availableDays nm).available &&
        decide (minViableSessionMinutes ≤ (lookupDay cfg.availableDays nm).duration)) then
    .error .insufficientAvailability
  else
    let weeks := (cfg.targetDate - today) / 7
    let days := (scheduleSlots today snap cfg).reverse
    let workouts := days.filterMap id
    let fm := forecast snap days
    let totalXss := workouts.foldl (fun a w => a + w.targetXss.total) 0
    let totalMinutes := workouts.foldl (fun a w => a + w.durationMinutes) 0
    .ok { workouts := workouts,
          summary := { totalWeeks := weeks, totalXss := totalXss,
                       avgWeeklyHours := totalMinutes / (60 * max 1 weeks),
                       phases := periodizationPhases weeks cfg.periodizationLevel
                         cfg.programType },
          predictedFitness := predictedOf snap fm }

/-- The inductive invariant behind the rolling polarization property: every
hard day in the (newest-first) class history passed the `hardCheck` for every
window of up to seven days ending at it. -/
def Hinv (pct : Nat) (l : List DayClass) : Prop :=
  ∀ m k, l[m]? = some .hard → k ≤ 6 → windowOk pct ((l.drop m).take (k + 1))

/-- The two-consecutive-hard safety rail as a property of the (newest-first)
class history: no three adjacent positions are all hard. -/
def NoThree (l : List DayClass) : Prop :=
  ∀ m, ¬(l[m]? = some .hard ∧ l[m + 1]? = some .hard ∧ l[m + 2]? = some .hard)

/-- The availability predicate carried through the scheduler walk. -/
def availOk (cfg : ForecastConfig) (o : Option PlannedWorkout) : Prop :=
  ∀ w, o = some w →
    (lookupDay cfg.availableDays (weekdayName (w.date % 7))).available = true

/-- A hard-intensity workout is scheduled on calendar day `d`. -/
def hardOn (r : GeneratedPlanResult) (d : Nat) : Prop :=
  ∃ w ∈ r.workouts, w.date = d ∧ isHardType w.workoutType = true

instance (r : GeneratedPlanResult) (d : Nat) : Decidable (hardOn r d) := by
  unfold hardOn; infer_instance

/-! ## Rolling 7-day polarization windows over the returned schedule -/

/-- Lifts a workout predicate to scheduler slots (rest days never match). -/
def optP (p : PlannedWorkout → Bool) : Option PlannedWorkout → Bool
  | none => false
  | some w => p w

/-- A workout is hard-intensity when its type is classified hard. -/
def isHardW (w : PlannedWorkout) : Bool :=
  isHardType w.workoutType

/-- Membership of a workout's date in the 7-day window starting at `lo`. -/
def inWin (lo : Nat) (w : PlannedWorkout) : Bool :=
  decide (lo ≤ w.date) && decide (w.date < lo + 7)

/-! ## Frontend response declarations (src/frontend/src/pages/Dashboard.tsx) -/

namespace Frontend

/-- Embeds the `AIPlannedWorkout` interface (Dashboard.tsx lines 1027–1034). -/
structure AIPlannedWorkout where
  date : String
  name : String
  workoutType : String
  durationMinutes : Nat
  targetTss : Option Nat := none
  targetXss : Option XSSBreakdown := none
deriving DecidableEq

/-- Embeds the `PlanPhaseInfo` interface (Dashboard.tsx lines 1037–1040). -/
structure PlanPhaseInfo where
  name : String
  weeks : Nat
deriving DecidableEq

/-- Embeds the `PlanSummary` interface (Dashboard.tsx lines 1042–1048). -/
structure PlanSummary where
  totalWeeks : Nat
  totalXss : Nat
  avgWeeklyHours : Nat
  phases : List PlanPhaseInfo
deriving DecidableEq

/-- Embeds the `PredictedFitness` interface (Dashboard.tsx lines 1050–1057). -/
structure PredictedFitness where
  thresholdPower : Nat
  highIntensityEnergy : Nat
  peakPower : Nat
  trainingLoad : TrainingLoad3D
  form : TrainingLoad3D
deriving DecidableEq

/-- Embeds the `GeneratedPlanResponse` interface (Dashboard.tsx lines
1059–1065): the plan response consumed by the frontend pages.  Note the
top-level `planId` field alongside `workouts`, `summary` and
`predictedFitness`. -/
structure GeneratedPlanResponse where
  planId : Nat
  workouts : List AIPlannedWorkout
  summary : PlanSummary
  predictedFitness : PredictedFitness
deriving DecidableEq

end Frontend

/-- A concrete plan response used to exercise the response shape. -/
def respA : Frontend.GeneratedPlanResponse :=
  { planId := 1,
    workouts := [{ date := "2026-01-05", name := "Endurance Ride",
                   workoutType := "endurance", durationMinutes := 60 }],
    summary := { totalWeeks := 8, totalXss := 400, avgWeeklyHours := 7,
                 phases := [{ name := "Base", weeks := 5 }, { name := "Build", weeks := 3 }] },
    predictedFitness := { thresholdPower := 250, highIntensityEnergy := 20,
                          peakPower := 900, trainingLoad := ⟨50, 10, 5⟩,
                          form := ⟨5, 1, 0⟩ } }

/-- The same plan response with a different `planId` only. -/
def respB : Frontend.GeneratedPlanResponse :=
  { respA with planId := 2 }

/-! ## The two frontend request builders (C10) -/

/-- The snake_case per-day availability payload entry built by both pages. -/
structure ApiDayAvailability where
  available : Bool
  start_time : Option String
  duration : Nat
deriving DecidableEq

/-- The snake_case plan-request payload sent to the generate-plan endpoint. -/
structure ApiPlanConfig where
  program_type : ProgramType
  target_date : Nat
  max_weekly_hours : Nat
  event_readiness : Nat
  periodization_level : Nat
  polarization_ratio : String
  recovery_demands : Nat
  available_days : List (String × ApiDayAvailability)
deriving DecidableEq

/-- Embeds the payload construction of `handleGeneratePlan` in the Plans page
(src/unnamed/part_003, lines 197–221): each availability entry is mapped to
snake_case keys and the eight config fields are copied over. -/
def handleGeneratePlanPayload (config : ForecastConfig) : ApiPlanConfig :=
  let availableDaysSnakeCase := config.availableDays.map fun e =>
    (e.1, { available := e.2.available, start_time := e.2.startTime,
            duration := e.2.duration : ApiDayAvailability })
  { program_type := config.programType,
    target_date := config.targetDate,
    max_weekly_hours := config.maxWeeklyHours,
    event_readiness := config.eventReadiness,
    periodization_level := config.periodizationLevel,
    polarization_ratio := config.polarizationRatio,
    recovery_demands := config.recoveryDemands,
    available_days := availableDaysSnakeCase }

/-- Embeds the payload construction of `generatePlan` in the AIPlanner page
(src/unnamed/part_005, lines 95–117): each availability entry is mapped to
snake_case keys and the eight config fields are copied over. -/
def aiPlannerGeneratePlanPayload (config : ForecastConfig) : ApiPlanConfig :=
  let availableDaysSnakeCase := config.availableDays.map fun e =>
    (e.1, { available := e.2.available, start_time := e.2.startTime,
            duration := e.2.duration : ApiDayAvailability })
  { program_type := config.programType,
    target_date := config.targetDate,
    max_weekly_hours := config.maxWeeklyHours,
    event_readiness := config.eventReadiness,
    periodization_level := config.periodizationLevel,
    polarization_ratio := config.polarizationRatio,
    recovery_demands := config.recoveryDemands,
    available_days := availableDaysSnakeCase }

/-! ## Concrete witness inputs -/

/-- A sample fitness signature. -/
def sampleSig : FitnessSignature :=
  { thresholdPower := 250, highIntensityEnergy := 20, peakPower := 900 }

/-- A sample athlete snapshot. -/
def sampleSnap : AthleteSnapshot :=
  { signature := sampleSig,
    trainingLoad := { low := 40, high := 10, peak := 5 },
    recoveryLoad := { low := 20, high := 5, peak := 2 } }

/-- A sample availability map: all seven days available (the Plans page's
default availability shape). -/
def sampleDays : List (String × DayAvailability) :=
  [("Monday", { available := true, startTime := some "06:00", duration := 60 }),
   ("Tuesday", { available := true, startTime := some "06:00", duration := 60 }),
   ("Wednesday", { available := true, startTime := some "06:00", duration := 60 }),
   ("Thursday", { available := true, startTime := some "06:00", duration := 60 }),
   ("Friday", { available := true, startTime := some "06:00", duration := 60 }),
   ("Saturday", { available := true, startTime := some "08:00", duration := 120 }),
   ("Sunday", { available := true, startTime := some "08:00", duration := 90 })]

/-- A sample valid planning request: 56 days out, 8 weekly hours, 80/20
polarization (spec §8 scenario A). -/
def sampleCfg : ForecastConfig :=
  { programType := .goal, targetDate := 56, maxWeeklyHours := 8,
    eventReadiness := 3, periodizationLevel := 50, polarizationRatio := "80/20",
    recoveryDemands := 50, availableDays := sampleDays }

/-- The availability map with every weekday marked unavailable. -/
def offDays : List (String × DayAvailability) :=
  weekdayNames.map fun nm => (nm, { available := false, startTime := none, duration := 0 })

/-- The sample request with all seven days unavailable (spec §8 scenario B). -/
def offCfg : ForecastConfig :=
  { sampleCfg with availableDays := offDays }

/-- The sample request with a target date of tomorrow (spec §8 scenario C). -/
def shortCfg : ForecastConfig :=
  { sampleCfg with targetDate := 1 }

/-- The empty plan placeholder. -/
def emptyResult : GeneratedPlanResult :=
  { workouts := [],
    summary := { totalWeeks := 0, totalXss := 0, avgWeeklyHours := 0, phases := [] },
    predictedFitness := { thresholdPower := 0, highIntensityEnergy := 0,
                          peakPower := 0, trainingLoad := ⟨0, 0, 0⟩, form := ⟨0, 0, 0⟩ } }

/-- The plan actually generated for the sample request. -/
def sampleRes : GeneratedPlanResult :=
  match generatePlan 0 1 sampleSnap sampleCfg with
  | .ok r => r
  | .error _ => emptyResult

/-- Filtering out zero-week phases preserves the total number of weeks. -/
theorem sum_weeks_filter_ne_zero (ps : List Phase) :
    ((ps.filter (fun p => p.weeks != 0)).map Phase.weeks).sum = (ps.map Phase.weeks).sum := by
  induction ps with
  | nil => rfl
  | cons p ps ih =>
    by_cases h : p.weeks = 0
    · simp [List.filter_cons, h, ih]
    · simp [List.filter_cons, h, ih]

/-- The phase list produced by the periodization planner sums exactly to the
requested number of weeks (spec §4.4). -/
theorem periodizationPhases_sum (totalWeeks level : Nat) (pt : ProgramType) :
    (((periodizationPhases totalWeeks level pt).map Phase.weeks)).sum = totalWeeks := by
  unfold periodizationPhases
  rw [sum_weeks_filter_ne_zero]
  cases pt <;> simp <;> omega

/-! ## Scheduler invariants -/

theorem countHard_cons (c : DayClass) (w : List DayClass) :
    countHard (c :: w) = countHard w + (if c = .hard then 1 else 0) := by
  simp [countHard, List.countP_cons]

theorem countSess_cons (c : DayClass) (w : List DayClass) :
    countSess (c :: w) = countSess w + (if c ≠ .rest then 1 else 0) := by
  simp [countSess, List.countP_cons]

theorem windowOk_nil (pct : Nat) : windowOk pct [] := by
  simp [windowOk, countHard]

/-- Prepending a non-hard day preserves the polarization constraint: the hard
count is unchanged and the session count can only grow. -/
theorem windowOk_cons_not_hard {pct : Nat} {c : DayClass} {w : List DayClass}
    (hc : c ≠ .hard) (hw : windowOk pct w) : windowOk pct (c :: w) := by
  unfold windowOk at hw ⊢
  rw [countHard_cons, countSess_cons]
  have hmono : pct * countSess w / 100 ≤ pct * (countSess w + (if c ≠ .rest then 1 else 0)) / 100 :=
    Nat.div_le_div_right (Nat.mul_le_mul_left _ (by omega))
  simp only [hc, if_false]
  omega

theorem hinv_nil (pct : Nat) : Hinv pct [] := by
  intro m k h
  simp at h

theorem hinv_cons {pct : Nat} {c : DayClass} {l : List DayClass}
    (hH : Hinv pct l) (hc : c = .hard → hardCheck pct (c :: l)) :
    Hinv pct (c :: l) := by
  intro m k hm hk
  cases m with
  | zero =>
    simp only [List.getElem?_cons_zero, Option.some.injEq] at hm
    have := hc hm
    simpa using this k (by omega)
  | succ m =>
    simp only [List.getElem?_cons_succ] at hm
    simpa using hH m k hm hk

/-- From the `Hinv` invariant, every window of at most seven consecutive days
of the class history satisfies the polarization constraint. -/
theorem allWindows {pct : Nat} {l : List DayClass} (hH : Hinv pct l) :
    ∀ t a, t ≤ 7 → windowOk pct ((l.drop a).take t) := by
  intro t
  induction t with
  | zero => intro a _; simpa using windowOk_nil pct
  | succ t ih =>
    intro a ht
    cases hcell : l[a]? with
    | none =>
      have hlen : l.length ≤ a := List.getElem?_eq_none_iff.mp hcell
      rw [List.drop_eq_nil_of_le hlen]
      simpa using windowOk_nil pct
    | some c =>
      have hlt : a < l.length := by
        by_contra hge
        rw [List.getElem?_eq_none_iff.mpr (by omega)] at hcell
        exact absurd hcell (by simp)
      have hdrop : l.drop a = l[a] :: l.drop (a + 1) := List.drop_eq_getElem_cons hlt
      have hgetc : l[a] = c := by
        have := List.getElem?_eq_getElem hlt
        rw [hcell] at this
        exact (Option.some.injEq _ _).mp this.symm
      by_cases hc : c = DayClass.hard
      · exact hH a t (by rw [hcell, hc]) (by omega)
      · rw [hdrop, hgetc, List.take_succ_cons]
        exact windowOk_cons_not_hard hc (ih (a + 1) (by omega))

theorem noThree_nil : NoThree [] := by
  intro m h
  simp at h

theorem noThree_cons {c : DayClass} {l : List DayClass}
    (hN : NoThree l) (hc : c = .hard → twoConsecHard l = false) :
    NoThree (c :: l) := by
  intro m h
  cases m with
  | zero =>
    obtain ⟨h0, h1, h2⟩ := h
    simp only [List.getElem?_cons_zero, Option.some.injEq] at h0
    simp only [List.getElem?_cons_succ] at h1 h2
    have hrail := hc h0
    match l, h1, h2 with
    | a :: b :: rest, h1, h2 =>
      simp only [List.getElem?_cons_zero, Option.some.injEq] at h1
      simp only [List.getElem?_cons_succ, List.getElem?_cons_zero, Option.some.injEq] at h2
      subst h1; subst h2
      simp [twoConsecHard] at hrail
  | succ m =>
    simp only [List.getElem?_cons_succ] at h
    exact hN m h

/-- A hard decision is only made after the rolling polarization check passed
and when the previous two days were not both hard. -/
theorem chooseClass_eq_hard {pct rd : Nat} {wh : Bool} {prior : List DayClass}
    (h : chooseClass pct rd wh prior = .hard) :
    hardCheck pct (.hard :: prior) ∧ twoConsecHard prior = false := by
  unfold chooseClass at h
  split_ifs at h with h1 h2 h3 h4
  · exact ⟨h4, by simpa using h2⟩

/-- A scheduled slot only arises on an available weekday, and carries that
day's calendar date. -/
theorem step_some {cfg : ForecastConfig} {sig : FitnessSignature}
    {today pct : Nat} {phases : List Phase} {i : Nat} {prior : List DayClass}
    {wu : Nat} {w : PlannedWorkout}
    (h : (step cfg sig today pct phases i prior wu).1 = some w) :
    (lookupDay cfg.availableDays (weekdayName ((today + i) % 7))).available = true ∧
      w.date = today + i := by
  simp only [step] at h
  repeat' split at h
  any_goals exact (Option.noConfusion h : False).elim
  all_goals
    have hw := Option.some.inj h
  all_goals
    refine ⟨by assumption, ?_⟩
  all_goals
    rw [← hw]
  all_goals
    rfl

/-- A hard slot only arises after the rolling polarization check passed and
when the previous two days were not both hard. -/
theorem step_hard {cfg : ForecastConfig} {sig : FitnessSignature}
    {today pct : Nat} {phases : List Phase} {i : Nat} {prior : List DayClass}
    {wu : Nat}
    (h : classOf (step cfg sig today pct phases i prior wu).1 = .hard) :
    hardCheck pct (.hard :: prior) ∧ twoConsecHard prior = false := by
  simp only [step] at h
  repeat' split at h
  any_goals exact (DayClass.noConfusion h : False).elim
  all_goals exact chooseClass_eq_hard (by assumption)

/-- Every slot accumulated by the scheduler walk respects day availability. -/
theorem buildRev_avail {cfg : ForecastConfig} {sig : FitnessSignature}
    {today pct : Nat} {phases : List Phase} :
    ∀ (n i : Nat) (acc : List (Option PlannedWorkout)) (wu : Nat),
      (∀ o ∈ acc, availOk cfg o) →
      ∀ o ∈ buildRev cfg sig today pct phases n i acc wu, availOk cfg o := by
  intro n
  induction n with
  | zero => intro i acc wu hacc; simpa [buildRev] using hacc
  | succ n ih =>
    intro i acc wu hacc
    simp only [buildRev]
    apply ih
    intro o ho
    rcases List.mem_cons.mp ho with h | h
    · subst h
      intro w hw
      obtain ⟨hav, hdate⟩ := step_some hw
      rw [hdate]
      exact hav
    · exact hacc o h

/-- Every slot accumulated by the scheduler walk carries the date of its day:
the element at position `m` (newest first) of the accumulator, once the walk
has reached day index `i`, is dated `today + i - 1 - m`. -/
theorem buildRev_dates {cfg : ForecastConfig} {sig : FitnessSignature}
    {today pct : Nat} {phases : List Phase} :
    ∀ (n i : Nat) (acc : List (Option PlannedWorkout)) (wu : Nat),
      (∀ m w, acc[m]? = some (some w) → w.date + m + 1 = today + i) →
      ∀ m w, (buildRev cfg sig today pct phases n i acc wu)[m]? = some (some w) →
        w.date + m + 1 = today + i + n := by
  intro n
  induction n with
  | zero => intro i acc wu hacc; simpa [buildRev] using hacc
  | succ n ih =>
    intro i acc wu hacc
    simp only [buildRev]
    intro m w hm
    have hstep : ∀ m' w', ((step cfg sig today pct phases i (acc.map classOf) wu).1 :: acc)[m']? =
        some (some w') → w'.date + m' + 1 = today + (i + 1) := by
      intro m' w' hm'
      cases m' with
      | zero =>
        simp only [List.getElem?_cons_zero, Option.some.injEq] at hm'
        obtain ⟨_, hdate⟩ := step_some hm'
        omega
      | succ m' =>
        simp only [List.getElem?_cons_succ] at hm'
        have := hacc m' w' hm'
        omega
    have := ih (i + 1) _ _ hstep m w hm
    omega

/-- The scheduler walk preserves the rolling-polarization invariant `Hinv`. -/
theorem buildRev_hinv {cfg : ForecastConfig} {sig : FitnessSignature}
    {today pct : Nat} {phases : List Phase} :
    ∀ (n i : Nat) (acc : List (Option PlannedWorkout)) (wu : Nat),
      Hinv pct (acc.map classOf) →
      Hinv pct ((buildRev cfg sig today pct phases n i acc wu).map classOf) := by
  intro n
  induction n with
  | zero => intro i acc wu hacc; simpa [buildRev] using hacc
  | succ n ih =>
    intro i acc wu hacc
    simp only [buildRev]
    apply ih
    rw [List.map_cons]
    apply hinv_cons hacc
    intro hc
    have := @step_hard cfg sig today pct phases i (acc.map classOf) wu (by rw [hc])
    rw [hc]
    exact this.1

/-- The scheduler walk preserves the two-consecutive-hard safety rail. -/
theorem buildRev_noThree {cfg : ForecastConfig} {sig : FitnessSignature}
    {today pct : Nat} {phases : List Phase} :
    ∀ (n i : Nat) (acc : List (Option PlannedWorkout)) (wu : Nat),
      NoThree (acc.map classOf) →
      NoThree ((buildRev cfg sig today pct phases n i acc wu).map classOf) := by
  intro n
  induction n with
  | zero => intro i acc wu hacc; simpa [buildRev] using hacc
  | succ n ih =>
    intro i acc wu hacc
    simp only [buildRev]
    apply ih
    rw [List.map_cons]
    apply noThree_cons hacc
    intro hc
    have := @step_hard cfg sig today pct phases i (acc.map classOf) wu (by rw [hc])
    exact this.2

/-- The scheduler walk emits exactly one slot per day. -/
theorem buildRev_length {cfg : ForecastConfig} {sig : FitnessSignature}
    {today pct : Nat} {phases : List Phase} :
    ∀ (n i : Nat) (acc : List (Option PlannedWorkout)) (wu : Nat),
      (buildRev cfg sig today pct phases n i acc wu).length = n + acc.length := by
  intro n
  induction n with
  | zero => intro i acc wu; simp [buildRev]
  | succ n ih =>
    intro i acc wu
    simp only [buildRev]
    rw [ih]
    simp
    omega

/-! ## Shape of a successful generatePlan result -/

/-- On success, the returned workouts are the scheduler's slots in calendar
order with rest days omitted, and the summary phases are the periodization
planner's output. -/
theorem generatePlan_ok_shape {today athleteId : Nat} {snap : AthleteSnapshot}
    {cfg : ForecastConfig} {r : GeneratedPlanResult}
    (h : generatePlan today athleteId snap cfg = .ok r) :
    r.workouts = ((scheduleSlots today snap cfg).reverse.filterMap id) ∧
      r.summary.phases =
        periodizationPhases ((cfg.targetDate - today) / 7) cfg.periodizationLevel
          cfg.programType := by
  unfold generatePlan at h
  split_ifs at h
  simp only [Except.ok.injEq] at h
  rw [← h]
  exact ⟨rfl, rfl⟩

/-- Every workout of a plan corresponds to a slot of the scheduler walk. -/
theorem workout_mem_slots {today athleteId : Nat} {snap : AthleteSnapshot}
    {cfg : ForecastConfig} {r : GeneratedPlanResult}
    (h : generatePlan today athleteId snap cfg = .ok r) {w : PlannedWorkout}
    (hmem : w ∈ r.workouts) : some w ∈ scheduleSlots today snap cfg := by
  obtain ⟨hw, -⟩ := generatePlan_ok_shape h
  rw [hw] at hmem
  obtain ⟨o, ho, hid⟩ := List.mem_filterMap.mp hmem
  rw [show (id o = some w) = (o = some w) from rfl] at hid
  subst hid
  exact List.mem_reverse.mp ho

/-- Every slot of the scheduler walk respects day availability. -/
theorem scheduleSlots_avail (today : Nat) (snap : AthleteSnapshot)
    (cfg : ForecastConfig) :
    ∀ o ∈ scheduleSlots today snap cfg, availOk cfg o := by
  unfold scheduleSlots
  exact buildRev_avail _ _ _ _ (by intro o ho; simp at ho)

/-- Every slot of the scheduler walk carries the date of its day. -/
theorem scheduleSlots_dates (today : Nat) (snap : AthleteSnapshot)
    (cfg : ForecastConfig) :
    ∀ m w, (scheduleSlots today snap cfg)[m]? = some (some w) →
      w.date + m + 1 = today + (cfg.targetDate - today) := by
  unfold scheduleSlots
  exact buildRev_dates _ _ _ _ (by intro m w hm; simp at hm)

/-- The rolling-polarization invariant holds of the full scheduler walk. -/
theorem scheduleSlots_hinv (today : Nat) (snap : AthleteSnapshot)
    (cfg : ForecastConfig) :
    Hinv (parseHardPct cfg.polarizationRatio)
      ((scheduleSlots today snap cfg).map classOf) := by
  unfold scheduleSlots
  exact buildRev_hinv _ _ _ _ (by simpa using hinv_nil _)

/-- The two-consecutive-hard safety rail holds of the full scheduler walk. -/
theorem scheduleSlots_noThree (today : Nat) (snap : AthleteSnapshot)
    (cfg : ForecastConfig) :
    NoThree ((scheduleSlots today snap cfg).map classOf) := by
  unfold scheduleSlots
  exact buildRev_noThree _ _ _ _ (by simpa using noThree_nil)

/-- The scheduler walk covers exactly the days between today and the target
date. -/
theorem scheduleSlots_length (today : Nat) (snap : AthleteSnapshot)
    (cfg : ForecastConfig) :
    (scheduleSlots today snap cfg).length = cfg.targetDate - today := by
  unfold scheduleSlots
  rw [buildRev_length]
  rfl

/-- C1: no workout is emitted on a weekday marked unavailable (spec §4.5
contract, §8). -/
theorem generatePlan_respects_availability (today athleteId : Nat)
    (snap : AthleteSnapshot) (cfg : ForecastConfig) (r : GeneratedPlanResult)
    (h : generatePlan today athleteId snap cfg = .ok r) :
    ∀ w ∈ r.workouts,
      (lookupDay cfg.availableDays (weekdayName (w.date % 7))).available = true := by
  intro w hmem
  have hs := workout_mem_slots h hmem
  exact scheduleSlots_avail today snap cfg (some w) hs w rfl

/-- C3: the summary's phase week counts sum exactly to the number of whole
weeks between today and the target date (spec §4.4, §8 round-trip). -/
theorem generatePlan_phases_sum (today athleteId : Nat) (snap : AthleteSnapshot)
    (cfg : ForecastConfig) (r : GeneratedPlanResult)
    (h : generatePlan today athleteId snap cfg = .ok r) :
    ((r.summary.phases.map Phase.weeks)).sum = (cfg.targetDate - today) / 7 := by
  obtain ⟨-, hp⟩ := generatePlan_ok_shape h
  rw [hp, periodizationPhases_sum]

/-- A workout on day `d` of a plan sits at position `today + horizon - 1 - d`
(newest first) of the scheduler walk, and that position is classified hard
whenever the workout is. -/
theorem hardOn_slot_pos {today athleteId : Nat} {snap : AthleteSnapshot}
    {cfg : ForecastConfig} {r : GeneratedPlanResult}
    (h : generatePlan today athleteId snap cfg = .ok r) {d : Nat}
    (hd : hardOn r d) :
    ∃ m, ((scheduleSlots today snap cfg).map classOf)[m]? = some .hard ∧
      d + m + 1 = today + (cfg.targetDate - today) := by
  obtain ⟨w, hmem, hdate, hhard⟩ := hd
  have hs := workout_mem_slots h hmem
  obtain ⟨m, hm⟩ := List.mem_iff_getElem?.mp hs
  refine ⟨m, ?_, ?_⟩
  · rw [List.getElem?_map, hm]
    simp [classOf, hhard]
  · have := scheduleSlots_dates today snap cfg m w hm
    omega

/-- C5: the schedule never contains three consecutive hard-intensity days;
after at most two consecutive hard days an easy or rest day is enforced,
whatever the configuration (spec §4.5 safety rail, §8). -/
theorem generatePlan_two_consecutive_hard_cap (today athleteId : Nat)
    (snap : AthleteSnapshot) (cfg : ForecastConfig) (r : GeneratedPlanResult)
    (h : generatePlan today athleteId snap cfg = .ok r) :
    ∀ d, ¬(hardOn r d ∧ hardOn r (d + 1) ∧ hardOn r (d + 2)) := by
  intro d hand
  obtain ⟨h0, h1, h2⟩ := hand
  obtain ⟨m0, hc0, he0⟩ := hardOn_slot_pos h h0
  obtain ⟨m1, hc1, he1⟩ := hardOn_slot_pos h h1
  obtain ⟨m2, hc2, he2⟩ := hardOn_slot_pos h h2
  have hN := scheduleSlots_noThree today snap cfg
  refine hN m2 ⟨?_, ?_, ?_⟩
  · exact hc2
  · rw [show m2 + 1 = m1 by omega]; exact hc1
  · rw [show m2 + 2 = m0 by omega]; exact hc0

theorem countP_filterMap_id (p : PlannedWorkout → Bool) :
    ∀ l : List (Option PlannedWorkout), (l.filterMap id).countP p = l.countP (optP p)
  | [] => rfl
  | none :: t => by
    simpa [List.filterMap_cons, List.countP_cons, optP] using countP_filterMap_id p t
  | some w :: t => by
    simp [List.filterMap_cons, List.countP_cons, optP, countP_filterMap_id p t]

theorem classOf_comp_hard :
    ((fun c => decide (c = DayClass.hard)) ∘ classOf) = optP isHardW := by
  funext o
  cases o with
  | none => simp [classOf, optP]
  | some w =>
    by_cases hw : isHardType w.workoutType
    · simp [classOf, optP, isHardW, hw]
    · simp [classOf, optP, isHardW, hw]

theorem classOf_comp_sess :
    ((fun c => decide (c ≠ DayClass.rest)) ∘ classOf) = optP (fun _ => true) := by
  funext o
  cases o with
  | none => simp [classOf, optP]
  | some w =>
    by_cases hw : isHardType w.workoutType
    · simp [classOf, optP, hw]
    · simp [classOf, optP, hw]

/-- Counting window-filtered slot entries of a dated (newest-first) slot list
equals counting over the contiguous slice of positions whose dates fall in
the window: the slot at position `m` carries date `E - 1 - m`, where `E` is
the day index one past the newest slot. -/
theorem count_window_slice (p : PlannedWorkout → Bool) :
    ∀ (l : List (Option PlannedWorkout)) (E lo : Nat),
      (∀ m w, l[m]? = some (some w) → w.date + m + 1 = E) →
      l.length ≤ E →
      l.countP (optP (fun w => p w && inWin lo w)) =
        ((l.drop (E - (lo + 7))).take ((E - lo) - (E - (lo + 7)))).countP
          (optP p) := by
  intro l
  induction l with
  | nil => intro E lo _ _; simp
  | cons o t ih =>
    intro E lo hdate hlen
    have hE1 : 1 ≤ E := by
      simp only [List.length_cons] at hlen
      omega
    have hdate0 : ∀ w, o = some w → w.date + 1 = E := by
      intro w hw
      have := hdate 0 w (by simp [hw])
      omega
    have hdate' : ∀ m w, t[m]? = some (some w) → w.date + m + 1 = E - 1 := by
      intro m w hm
      have := hdate (m + 1) w (by simpa using hm)
      omega
    have hlen' : t.length ≤ E - 1 := by
      simp only [List.length_cons] at hlen
      omega
    have iht := ih (E - 1) lo hdate' hlen'
    by_cases hge : lo < E
    · by_cases hlt : E ≤ lo + 7
      · -- the head's day lies inside the window
        have ha : E - (lo + 7) = 0 := by omega
        have hb : E - lo = (E - 1 - lo) + 1 := by omega
        have ha' : E - 1 - (lo + 7) = 0 := by omega
        rw [ha, hb, List.drop_zero, Nat.sub_zero, List.take_succ_cons,
          List.countP_cons, List.countP_cons]
        rw [ha', List.drop_zero, Nat.sub_zero] at iht
        rw [iht]
        congr 1
        cases o with
        | none => simp [optP]
        | some w =>
          have hw := hdate0 w rfl
          have hw1 : lo ≤ w.date := by omega
          have hw2 : w.date < lo + 7 := by omega
          simp [optP, inWin, hw1, hw2]
      · -- the head's day lies above the window
        have ha : E - (lo + 7) = (E - 1 - (lo + 7)) + 1 := by omega
        have hbd : E - lo - ((E - 1 - (lo + 7)) + 1) =
            (E - 1 - lo) - (E - 1 - (lo + 7)) := by omega
        rw [ha, List.drop_succ_cons, List.countP_cons, hbd]
        rw [← iht]
        cases o with
        | none => simp [optP]
        | some w =>
          have hw := hdate0 w rfl
          have hw2 : ¬ w.date < lo + 7 := by omega
          simp [optP, inWin, hw2]
    · -- the head's day lies below the window, and so do all tail days
      have ha : E - (lo + 7) = 0 := by omega
      have hb : E - lo = 0 := by omega
      have ha' : E - 1 - (lo + 7) = 0 := by omega
      have hb' : E - 1 - lo = 0 := by omega
      rw [ha, hb, Nat.sub_zero, List.take_zero, List.countP_nil, List.countP_cons]
      rw [ha', hb', Nat.sub_zero, List.drop_zero, List.take_zero, List.countP_nil] at iht
      rw [iht]
      cases o with
      | none => simp [optP]
      | some w =>
        have hw := hdate0 w rfl
        have hw1 : ¬ lo ≤ w.date := by omega
        simp [optP, inWin, hw1]

/-- C4: in every rolling 7-day window over the returned schedule, the number
of hard-intensity workouts does not exceed the hard-side share implied by
`polarizationRatio`, up to a rounding tolerance of one workout (spec §4.5,
§8). -/
theorem generatePlan_polarization_window (today athleteId : Nat)
    (snap : AthleteSnapshot) (cfg : ForecastConfig) (r : GeneratedPlanResult)
    (h : generatePlan today athleteId snap cfg = .ok r) (lo : Nat) :
    (r.workouts.filter (inWin lo)).countP isHardW ≤
      parseHardPct cfg.polarizationRatio *
        (r.workouts.filter (inWin lo)).length / 100 + 1 := by
  obtain ⟨hw, -⟩ := generatePlan_ok_shape h
  have hdate := scheduleSlots_dates today snap cfg
  have hlenEq := scheduleSlots_length today snap cfg
  set E := today + (cfg.targetDate - today) with hEdef
  have hlen : (scheduleSlots today snap cfg).length ≤ E := by omega
  have hs1 := count_window_slice isHardW (scheduleSlots today snap cfg) E lo hdate hlen
  have hs2 : (scheduleSlots today snap cfg).countP (optP (inWin lo)) =
      (((scheduleSlots today snap cfg).drop (E - (lo + 7))).take
        ((E - lo) - (E - (lo + 7)))).countP (optP (fun _ => true)) := by
    have := count_window_slice (fun _ => true) (scheduleSlots today snap cfg) E lo hdate hlen
    simpa using this
  set a := E - (lo + 7) with hadef
  set tt := (E - lo) - a with htdef
  set S := ((scheduleSlots today snap cfg).drop a).take tt with hSdef
  have hA : (r.workouts.filter (inWin lo)).countP isHardW =
      (scheduleSlots today snap cfg).countP
        (optP (fun w => isHardW w && inWin lo w)) := by
    rw [hw, List.countP_filter, countP_filterMap_id, List.countP_reverse]
  have hB : (r.workouts.filter (inWin lo)).length =
      (scheduleSlots today snap cfg).countP (optP (inWin lo)) := by
    rw [hw, ← List.countP_eq_length_filter, countP_filterMap_id, List.countP_reverse]
  have hHard : S.countP (optP isHardW) = countHard (S.map classOf) := by
    unfold countHard
    rw [List.countP_map, classOf_comp_hard]
  have hSess : S.countP (optP (fun _ => true)) = countSess (S.map classOf) := by
    unfold countSess
    rw [List.countP_map, classOf_comp_sess]
  have ht7 : tt ≤ 7 := by omega
  have hwin := allWindows (scheduleSlots_hinv today snap cfg) tt a ht7
  have hcomm : (((scheduleSlots today snap cfg).map classOf).drop a).take tt =
      S.map classOf := by
    rw [hSdef, List.map_take, List.map_drop]
  rw [hcomm] at hwin
  unfold windowOk at hwin
  rw [hA, hs1, hB, hs2, hHard, hSess]
  exact hwin

/-! ## Determinism, validation errors, impulse edge cases -/

/-- C2: generatePlan is deterministic — two invocations with identical
inputs (athlete id, fitness snapshot and config) return identical results
(spec §8 idempotence; the engine is a pure function of its inputs, spec §5). -/
theorem generatePlan_deterministic (today₁ today₂ athleteId₁ athleteId₂ : Nat)
    (snap₁ snap₂ : AthleteSnapshot) (cfg₁ cfg₂ : ForecastConfig)
    (ht : today₁ = today₂) (ha : athleteId₁ = athleteId₂) (hs : snap₁ = snap₂)
    (hc : cfg₁ = cfg₂) :
    generatePlan today₁ athleteId₁ snap₁ cfg₁ =
      generatePlan today₂ athleteId₂ snap₂ cfg₂ := by
  rw [ht, ha, hs, hc]

/-- C6: when all seven weekdays are marked unavailable, generatePlan aborts
with a validation error (`InvalidConfiguration` per the spec §7 split) and
returns no plan, before any scheduling work (spec §4.7, §8 scenario B). -/
theorem generatePlan_all_unavailable_error (today athleteId : Nat)
    (snap : AthleteSnapshot) (cfg : ForecastConfig)
    (hall : ∀ nm ∈ weekdayNames, (lookupDay cfg.availableDays nm).available = false) :
    generatePlan today athleteId snap cfg = .error .invalidConfiguration := by
  unfold generatePlan
  have hany : (weekdayNames.any fun nm => (lookupDay cfg.availableDays nm).available) = false := by
    rw [List.any_eq_false]
    intro nm hnm
    simp [hall nm hnm]
  have hcond : ¬ ((weekdayNames.any fun nm =>
      (lookupDay cfg.availableDays nm).available) = true) := by
    simp [hany]
  by_cases h1 : cfg.targetDate < today + minPlanningHorizonDays
  · rw [if_pos h1]
  · rw [if_neg h1, if_pos hcond]

/-- C7: a target date less than the minimum planning horizon in the future is
rejected with `InvalidConfiguration` and no plan is returned (spec §3
invariant, §7, §8 scenario C). -/
theorem generatePlan_below_min_horizon_error (today athleteId : Nat)
    (snap : AthleteSnapshot) (cfg : ForecastConfig)
    (hshort : cfg.targetDate < today + minPlanningHorizonDays) :
    generatePlan today athleteId snap cfg = .error .invalidConfiguration := by
  unfold generatePlan
  rw [if_pos hshort]

/-- C8: impulseFor is total, and a zero duration or an unrecognized workout
type yields the zero impulse rather than an error (spec §4.2 edge case). -/
theorem impulseFor_zero (workoutType : String) (durationMinutes intensityTarget : Nat)
    (sig : FitnessSignature)
    (hz : durationMinutes = 0 ∨ workoutTypeShares.lookup workoutType = none) :
    impulseFor workoutType durationMinutes intensityTarget sig =
      { total := 0, low := 0, high := 0, peak := 0 } := by
  rcases hz with hz | hz
  · simp [impulseFor, hz]
  · simp [impulseFor, hz]

/-- C9 counterexample: the plan response declared by the repository is not
made up of the fields `workouts`, `summary` and `predictedFitness` alone —
two responses that agree on all three differ in the additional top-level
`planId` field (Dashboard.tsx line 1061; the AIPlanner page reads
`generatedPlan.planId`, src/unnamed/part_005 line 578). -/
theorem generatedPlanResponse_extra_field :
    (respA.workouts = respB.workouts ∧ respA.summary = respB.summary ∧
      respA.predictedFitness = respB.predictedFitness) ∧ respA ≠ respB :=
  ⟨⟨rfl, rfl, rfl⟩, by decide⟩

/-- C9 (amended): the plan response consists exactly of the top-level fields
`planId`, `workouts`, `summary` and `predictedFitness` — two responses that
agree on these four fields are equal. -/
theorem generatedPlanResponse_ext (r₁ r₂ : Frontend.GeneratedPlanResponse)
    (hp : r₁.planId = r₂.planId) (hw : r₁.workouts = r₂.workouts)
    (hs : r₁.summary = r₂.summary) (hf : r₁.predictedFitness = r₂.predictedFitness) :
    r₁ = r₂ := by
  cases r₁
  cases r₂
  simp_all

/-- Witness for the amended C9 statement at a concrete response. -/
theorem generatedPlanResponse_ext_witness : respA = respA :=
  generatedPlanResponse_ext respA respA rfl rfl rfl rfl

/-- C10: the two independently implemented request builders compute the same
payload function on every ForecastConfig. -/
theorem payload_builders_agree (config : ForecastConfig) :
    handleGeneratePlanPayload config = aiPlannerGeneratePlanPayload config := rfl

/-- Witness for C1 at the sample request. -/
theorem generatePlan_respects_availability_witness :
    (sampleRes.workouts.all fun w =>
      (lookupDay sampleCfg.availableDays (weekdayName (w.date % 7))).available) = true :=
  List.all_eq_true.mpr fun w hw =>
    generatePlan_respects_availability 0 1 sampleSnap sampleCfg sampleRes rfl w hw

/-- Witness for C2 at the sample request. -/
theorem generatePlan_deterministic_witness :
    generatePlan 0 1 sampleSnap sampleCfg = generatePlan 0 1 sampleSnap sampleCfg :=
  generatePlan_deterministic 0 0 1 1 sampleSnap sampleSnap sampleCfg sampleCfg
    rfl rfl rfl rfl

/-- Witness for C3 at the sample request: the phase weeks sum to the eight
whole weeks of the horizon. -/
theorem generatePlan_phases_sum_witness :
    ((sampleRes.summary.phases.map Phase.weeks)).sum = (sampleCfg.targetDate - 0) / 7 :=
  generatePlan_phases_sum 0 1 sampleSnap sampleCfg sampleRes rfl

/-- Witness for C4 at the sample request and the window starting on day 10. -/
theorem generatePlan_polarization_window_witness :
    (sampleRes.workouts.filter (inWin 10)).countP isHardW ≤
      parseHardPct sampleCfg.polarizationRatio *
        (sampleRes.workouts.filter (inWin 10)).length / 100 + 1 :=
  generatePlan_polarization_window 0 1 sampleSnap sampleCfg sampleRes rfl 10

/-- Witness for C5 at the sample request and days 3–5. -/
theorem generatePlan_two_consecutive_hard_cap_witness :
    ¬(hardOn sampleRes 3 ∧ hardOn sampleRes 4 ∧ hardOn sampleRes 5) :=
  generatePlan_two_consecutive_hard_cap 0 1 sampleSnap sampleCfg sampleRes rfl 3

/-- Witness for C6: the all-unavailable request is rejected. -/
theorem generatePlan_all_unavailable_error_witness :
    generatePlan 0 1 sampleSnap offCfg = .error .invalidConfiguration :=
  generatePlan_all_unavailable_error 0 1 sampleSnap offCfg (by decide)

/-- Witness for C7: the next-day target date is rejected. -/
theorem generatePlan_below_min_horizon_error_witness :
    generatePlan 0 1 sampleSnap shortCfg = .error .invalidConfiguration :=
  generatePlan_below_min_horizon_error 0 1 sampleSnap shortCfg (by decide)

/-- Witness for C8: an unrecognized workout type yields the zero impulse. -/
theorem impulseFor_zero_witness :
    impulseFor "yoga" 60 80 sampleSig = { total := 0, low := 0, high := 0, peak := 0 } :=
  impulseFor_zero "yoga" 60 80 sampleSig (Or.inr (by decide))

end ApexPath
